import Mathlib

set_option maxRecDepth 8000
set_option maxHeartbeats 1000000

namespace Argparse

/-- Error conditions of the parser. Each constructor corresponds to one throw
or exit site in argparse.hpp: the argumentError call sites of parse and
verify, the two out_of_range throws in retrieve, the bad_cast throw in
Any::castTo, and an out-of-bounds vector read (undefined behavior in the C++
source, modelled here as an abort). A raised error aborts the operation both
in exception mode and in the print-and-exit mode, so both modes are modelled
by the same Except value. -/
inductive PError where
  | invalidName (name : String)
  | tooManyInputs (activeName : String)
  | incompleteArgument (el activeName : String)
  | unexpectedRequired (el : String)
  | tooFewInputs (el : String)
  | unexpectedSpecifier (el : String)
  | missingRequired (appName : String)
  | keyNotFound
  | valueNotFound
  | badCast
  | oobRead
  deriving DecidableEq

instance {ε α : Type} [DecidableEq ε] [DecidableEq α] : DecidableEq (Except ε α)
  | Except.ok x, Except.ok y =>
    if h : x = y then isTrue (by rw [h]) else isFalse (by simp [h])
  | Except.error x, Except.error y =>
    if h : x = y then isTrue (by rw [h]) else isFalse (by simp [h])
  | Except.ok _, Except.error _ => isFalse (by simp)
  | Except.error _, Except.ok _ => isFalse (by simp)

/-- character of s at position i, as the C++ name[i] on ASCII strings -/
def charAt (s : String) (i : Nat) : Char := s.data.getD i ' '

/-- delimit: prepend min(size, 2) dashes to the name -/
def delimit (name : String) : String :=
  String.mk (List.replicate (min name.length 2) '-') ++ name

/-- strip: drop a leading dash when present, and a second dash only when
size > 3 (so a 3-character name such as --x keeps its second dash) -/
def strip (name : String) : String :=
  let b1 : Nat := if 0 < name.length then (if charAt name 0 = '-' then 1 else 0) else 0
  let b2 : Nat := if 3 < name.length then (if charAt name 1 = '-' then 1 else 0) else 0
  String.mk (name.data.drop (b1 + b2))

/-- upper: map toupper over the characters (ASCII) -/
def upper (s : String) : String := String.mk (s.data.map Char.toUpper)

/-- escape: wrap in double quotes when the string holds a space -/
def escape (s : String) : String :=
  if s.data.contains ' ' then "\"" ++ s ++ "\"" else s

def spaces (n : Nat) : String := String.mk (List.replicate n ' ')

/-- the union of fixed_nargs (a size_t) and variable_nargs (a char),
discriminated by the fixed flag of the Argument -/
inductive Nargs where
  | fixedN (n : Nat)
  | varN (c : Char)
  deriving DecidableEq

structure Argument where
  short_name : String
  name : String
  required : Bool
  default_value : String
  help : String
  nargs : Nargs
  deriving DecidableEq

/-- the Argument() default constructor: everything empty, fixed arity 0 -/
def Argument.init : Argument := ⟨"", "", false, "", "", Nargs.fixedN 0⟩

/-- the Argument(short, name, required, nargs, default, help) constructor.
nargs is a char: + and * select variable arity, any other char value is
taken as the fixed count. -/
def mkArgument (short nm : String) (required : Bool) (nargs : Char)
    (dflt : String) (help : String) : Argument :=
  if nargs = '+' ∨ nargs = '*' then ⟨short, nm, required, dflt, help, Nargs.varN nargs⟩
  else ⟨short, nm, required, dflt, help, Nargs.fixedN nargs.toNat⟩

def Argument.isFixed (a : Argument) : Bool :=
  match a.nargs with
  | Nargs.fixedN _ => true
  | Nargs.varN _ => false

def Argument.fixed_nargs (a : Argument) : Nat :=
  match a.nargs with
  | Nargs.fixedN n => n
  | Nargs.varN c => c.toNat

def Argument.variable_nargs (a : Argument) : Char :=
  match a.nargs with
  | Nargs.fixedN n => Char.ofNat n
  | Nargs.varN c => c

def Argument.canonicalName (a : Argument) : String :=
  if a.name = "" then a.short_name else a.name

/-- Argument::toString -/
def Argument.render (a : Argument) (named : Bool) : String :=
  let uname := if a.name = "" then upper (strip a.short_name) else upper (strip a.name)
  let s := ""
  let s := if named = true ∧ a.required = false then s ++ "[" else s
  let s := if named = true then s ++ a.canonicalName else s
  let s :=
    if a.isFixed = true then
      let N := min 3 a.fixed_nargs
      let s := s ++ String.join (List.replicate N (" " ++ uname))
      if N < a.fixed_nargs then s ++ " ..." else s
    else s
  let s :=
    if a.isFixed = false then
      let s := s ++ " "
      let s := if a.variable_nargs = '*' then s ++ "[" else s
      let s := s ++ uname ++ " "
      let s := if a.variable_nargs = '+' then s ++ "[" else s
      s ++ uname ++ "...]"
    else s
  if named = true ∧ a.required = false then s ++ "]" else s

/-- the type-erased value slot: it holds either a single string or a vector
of strings. Note that Any::castTo in the source returns its result BY VALUE
(the declared return type is ValueType, not a reference), so writing through
castTo modifies a temporary copy; reads are modelled by the two functions
below, a cast to the wrong alternative throws bad_cast. -/
inductive Any where
  | str (s : String)
  | vec (xs : List String)
  deriving DecidableEq

def Any.castToString : Any → Except PError String
  | Any.str s => Except.ok s
  | Any.vec _ => Except.error PError.badCast

def Any.castToVec : Any → Except PError (List String)
  | Any.vec xs => Except.ok xs
  | Any.str _ => Except.error PError.badCast

/-- the IndexMap (map from name to position in the argument vector) -/
abbrev IndexMap := List (String × Nat)

def mapFind : IndexMap → String → Option Nat
  | [], _ => none
  | (k', v) :: rest, k => if k' = k then some v else mapFind rest k

/-- map::count for IndexMap: 1 when the key is present, otherwise 0 -/
def mapCount (m : IndexMap) (k : String) : Nat :=
  if (mapFind m k).isSome = true then 1 else 0

/-- assignment through operator[]: overwrite when present, append otherwise -/
def mapSet : IndexMap → String → Nat → IndexMap
  | [], k, v => [(k, v)]
  | (k', v') :: rest, k, v =>
    if k' = k then (k', v) :: rest else (k', v') :: mapSet rest k v

/-- read through operator[]: a missing key is value-initialized to 0 and
INSERTED into the map, so a read can mutate the map -/
def mapGetI (m : IndexMap) (k : String) : Nat × IndexMap :=
  match mapFind m k with
  | some v => (v, m)
  | none => (0, mapSet m k 0)

/-- the ArgumentParser member variables -/
structure Parser where
  index_ : IndexMap
  ignore_first_ : Bool
  use_exceptions_ : Bool
  required_ : Nat
  app_name_ : String
  final_name_ : String
  arguments_ : List Argument
  variables_ : List Any
  deriving DecidableEq

/-- the ArgumentParser() constructor: ignore_first_ true, use_exceptions_
false, required_ 0, everything else empty -/
def Parser.init : Parser := ⟨[], true, false, 0, "", "", [], []⟩

/-- insertArgument: push the argument, create its value slot (a single
string initialized to the default when fixed arity is at most 1, an empty
vector otherwise), index the short and the long name, and bump required_
when the argument is required and has no default -/
def insertArgument (p : Parser) (arg : Argument) : Parser :=
  let N := p.arguments_.length
  let slot : Any :=
    if arg.isFixed = true ∧ arg.fixed_nargs ≤ 1 then Any.str arg.default_value
    else Any.vec []
  let idx := if arg.short_name = "" then p.index_ else mapSet p.index_ arg.short_name N
  let idx := if arg.name = "" then idx else mapSet idx arg.name N
  let req :=
    if arg.required = true ∧ arg.default_value = "" then p.required_ + 1 else p.required_
  ⟨idx, p.ignore_first_, p.use_exceptions_, req, p.app_name_, p.final_name_,
    p.arguments_ ++ [arg], p.variables_ ++ [slot]⟩

/-- verify: argument-name validation. Empty names, 2-character names that do
not start with a dash, ALL 3-character names, and longer names without a
leading double dash are rejected. -/
def verify (name : String) : Except PError String :=
  if name = "" then Except.error (PError.invalidName name)
  else if (name.length = 2 ∧ charAt name 0 ≠ '-') ∨ name.length = 3 then
    Except.error (PError.invalidName name)
  else if 3 < name.length ∧ (charAt name 0 ≠ '-' ∨ charAt name 1 ≠ '-') then
    Except.error (PError.invalidName name)
  else Except.ok name

/-- the single-name addArgument overload. Note that the source constructs
the Argument WITHOUT passing _default and help through, so both are dropped
here, exactly as in the source. -/
def addArgument1 (p : Parser) (name : String) (nargs : Char) (_dflt : String)
    (required : Bool) (_hlp : String) : Except PError Parser :=
  if 2 < name.length then
    match verify name with
    | Except.error e => Except.error e
    | Except.ok n => Except.ok (insertArgument p (mkArgument "" n required nargs "" ""))
  else
    match verify name with
    | Except.error e => Except.error e
    | Except.ok n => Except.ok (insertArgument p (mkArgument n "" required nargs "" ""))

/-- the two-name addArgument overload: this one passes default and help on -/
def addArgument2 (p : Parser) (short nm : String) (nargs : Char) (dflt : String)
    (required : Bool) (hlp : String) : Except PError Parser :=
  match verify short with
  | Except.error e => Except.error e
  | Except.ok s =>
    match verify nm with
    | Except.error e => Except.error e
    | Except.ok n => Except.ok (insertArgument p (mkArgument s n required nargs dflt hlp))

/-- addFinalArgument: record the delimited name as final_name_ and insert;
no verify is performed and the default is dropped (the source passes only
name, required and nargs to the Argument constructor) -/
def addFinalArgument (p : Parser) (name : String) (nargs : Char) (_dflt : String)
    (required : Bool) (_hlp : String) : Parser :=
  let fn := delimit name
  insertArgument { p with final_name_ := fn } (mkArgument "" fn required nargs "" "")

def appName (p : Parser) (name : String) : Parser := { p with app_name_ := name }

def ignoreFirstArgument (p : Parser) (b : Bool) : Parser := { p with ignore_first_ := b }

def useExceptions (p : Parser) (b : Bool) : Parser := { p with use_exceptions_ := b }

/-- clear: resets ignore_first_, required_, index_, arguments_ and
variables_; app_name_, final_name_ and use_exceptions_ are NOT touched -/
def clear (p : Parser) : Parser :=
  { p with
    ignore_first_ := true
    required_ := 0
    index_ := []
    arguments_ := []
    variables_ := [] }

/-- the exists() member: is the delimited name in the index -/
def existsArg (p : Parser) (name : String) : Bool :=
  0 < mapCount p.index_ (delimit name)

/-- count: 0 for an undeclared name; for a fixed argument the emptiness of
the single-string slot as 0 or 1, for a variable-arity argument the vector
length. The dispatch is on arg.fixed alone, so a fixed argument with arity
2 or more (whose slot is a vector) hits castTo of string and throws
bad_cast. The possibly mutated parser is returned alongside, mirroring that
the member function is not const; the operator[] read is guarded by the
preceding count check, so it is reached only for present keys. -/
def countM (p : Parser) (name : String) : Except PError Nat × Parser :=
  if mapCount p.index_ (delimit name) = 0 then (Except.ok 0, p)
  else
    let r := mapGetI p.index_ (delimit name)
    let p1 : Parser := { p with index_ := r.2 }
    match p1.arguments_.get? r.1, p1.variables_.get? r.1 with
    | some arg, some v =>
      if arg.isFixed = true then
        match v.castToString with
        | Except.error e => (Except.error e, p1)
        | Except.ok s => (Except.ok (if s = "" then 0 else 1), p1)
      else
        match v.castToVec with
        | Except.error e => (Except.error e, p1)
        | Except.ok xs => (Except.ok xs.length, p1)
    | _, _ => (Except.error PError.oobRead, p1)

/-- retrieve of std::string: Key-not-found when the delimited name is not in
the index; otherwise the source runs: else if (count(name)) throw
Value-not-found. That condition is TRUE when a value is present, so a
nonzero count throws and a zero count falls through to return the raw slot
content. -/
def retrieveStringM (p : Parser) (name : String) : Except PError String × Parser :=
  if mapCount p.index_ (delimit name) = 0 then (Except.error PError.keyNotFound, p)
  else
    match countM p name with
    | (Except.error e, p1) => (Except.error e, p1)
    | (Except.ok c, p1) =>
      if c ≠ 0 then (Except.error PError.valueNotFound, p1)
      else
        let r := mapGetI p1.index_ (delimit name)
        let p2 : Parser := { p1 with index_ := r.2 }
        match p2.variables_.get? r.1 with
        | none => (Except.error PError.oobRead, p2)
        | some v => (v.castToString, p2)

/-- one pass of the usage() argument loops: w selects the pass (true for the
required-arguments pass, false for the optional one); arguments whose long
name equals final_name_ are skipped; a space is emitted, then the rendered
argument, with a line break and indent when the rendered size plus the
accumulated line length exceeds 80. The accumulated length counts only the
rendered argument strings placed without a break: not the prefix, not the
emitted spaces, not the indent, and not the argument emitted right after a
break. -/
def usageFold (fn : String) (ind : Nat) (w : Bool) :
    List Argument → String → Nat → String × Nat
  | [], acc, ll => (acc, ll)
  | a :: rest, acc, ll =>
    if a.required ≠ w then usageFold fn ind w rest acc ll
    else if a.name = fn then usageFold fn ind w rest acc ll
    else
      let acc1 := acc ++ " "
      let argstr := a.render true
      if 80 < argstr.length + ll then
        usageFold fn ind w rest (acc1 ++ "\n" ++ spaces ind ++ argstr) 0
      else
        usageFold fn ind w rest (acc1 ++ argstr) (ll + argstr.length)

/-- usage(): premable, required pass, optional pass, then the final
argument rendered unnamed. The final block reads index_[final_name_]
through operator[], which inserts a zero entry when final_name_ is not in
the index (reachable after clear), and then indexes arguments_, which is
out of bounds in that state. -/
def usageM (p : Parser) : Except PError String × Parser :=
  let pre := "Usage: " ++ escape p.app_name_
  let ind := pre.length
  let r1 := usageFold p.final_name_ ind true p.arguments_ pre 0
  let r2 := usageFold p.final_name_ ind false p.arguments_ r1.1 r1.2
  if p.final_name_ = "" then (Except.ok r2.1, p)
  else
    let r := mapGetI p.index_ p.final_name_
    let p1 : Parser := { p with index_ := r.2 }
    match p1.arguments_.get? r.1 with
    | none => (Except.error PError.oobRead, p1)
    | some a =>
      let argstr := a.render false
      if 80 < argstr.length + r2.2 then
        (Except.ok (r2.1 ++ "\n" ++ spaces ind ++ argstr), p1)
      else (Except.ok (r2.1 ++ argstr), p1)

/-- size_t arithmetic: width and wrapping decrement -/
def UMAX : Nat := 2 ^ 64

def wrapDec (n : Nat) : Nat := (n + (UMAX - 1)) % UMAX

/-- last position of a forward or backward slash in the string -/
def findLastOf (s : String) : Option Nat :=
  (List.range s.length).foldl
    (fun acc i => if charAt s i = '/' ∨ charAt s i = '\\' then some i else acc) none

/-- the app-name derivation at the top of parse: the substring after the
last path separator of argv[0] (find_last_of returns npos when there is no
separator and npos + 1 wraps to 0, giving the whole string) -/
def basename (s : String) : String :=
  match findLastOf s with
  | some i => String.mk (s.data.drop (i + 1))
  | none => s

def setAppName (p : Parser) (argv : List String) : Parser :=
  if p.app_name_ = "" ∧ p.ignore_first_ = true ∧ argv ≠ [] then
    { p with app_name_ := basename (argv.headD "") }
  else p

/-- the final working Argument at the start of parse: a default Argument
when no final name is registered, otherwise arguments_[index_[final_name_]]
(the operator[] read can insert, and the vector access is out of bounds
when the name is stale) -/
def getFinalArg (p : Parser) : Except PError Argument × Parser :=
  if p.final_name_ = "" then (Except.ok Argument.init, p)
  else
    let r := mapGetI p.index_ p.final_name_
    let p1 : Parser := { p with index_ := r.2 }
    match p1.arguments_.get? r.1 with
    | none => (Except.error PError.oobRead, p1)
    | some a => (Except.ok a, p1)

/-- nfinal, exactly as computed at line 330 of the source: 0 when the final
argument is not required, else its fixed arity when fixed, else 1 for +
and 0 for * -/
def nfinalOf (final : Argument) : Nat :=
  if final.required = false then 0
  else if final.isFixed = true then final.fixed_nargs
  else if final.variable_nargs = '+' then 1 else 0

def igOf (p : Parser) : Nat := if p.ignore_first_ = true then 1 else 0

/-- the tokens walked by the main loop: positions ig up to length - nfinal -/
def mainTokens (argv : List String) (ig nfinal : Nat) : List String :=
  (argv.drop ig).take (argv.length - nfinal - ig)

/-- the reserved trailing tokens: from max(ig, length - nfinal) to the end -/
def finalTokens (argv : List String) (ig nfinal : Nat) : List String :=
  argv.drop (max ig (argv.length - nfinal))

/-- has the active argument consumed too few elements for a new key to
start (the IncompleteArgument condition of the source) -/
def incompleteCond (active : Argument) (consumed : Nat) : Prop :=
  (active.isFixed = true ∧ active.fixed_nargs ≠ consumed) ∨
  (active.isFixed = false ∧ active.variable_nargs = '+' ∧ consumed < 1)

instance (a : Argument) (c : Nat) : Decidable (incompleteCond a c) := by
  unfold incompleteCond
  exact inferInstance

/-- are there too few remaining inputs for the newly activated argument
(nremaining is the token count after the key, excluding reserved ones) -/
def tooFewCond (arg : Argument) (nremaining : Nat) : Prop :=
  (arg.isFixed = true ∧ nremaining < arg.fixed_nargs) ∨
  (arg.isFixed = false ∧ arg.variable_nargs = '+' ∧ nremaining = 0)

instance (a : Argument) (n : Nat) : Decidable (tooFewCond a n) := by
  unfold tooFewCond
  exact inferInstance

/-- the new-key branch of the main parse loop: check the previous active
argument got its arity, look up the new argument, reject a non-required key
while required keys are outstanding, reject when too few inputs remain, and
decrement nrequired for a required argument with no default. Returns the
new active argument and counter plus the (possibly grown) index. -/
def keyStep (p : Parser) (active : Argument) (consumed nrequired : Nat)
    (el : String) (nremaining : Nat) :
    Except PError (Argument × Nat) × IndexMap :=
  if incompleteCond active consumed then
    (Except.error (PError.incompleteArgument el active.canonicalName), p.index_)
  else
    let r := mapGetI p.index_ el
    match p.arguments_.get? r.1 with
    | none => (Except.error PError.oobRead, r.2)
    | some na =>
      if na.required = false ∧ 0 < nrequired then
        (Except.error (PError.unexpectedRequired el), r.2)
      else if tooFewCond na nremaining then
        (Except.error (PError.tooFewInputs el), r.2)
      else
        let nr :=
          if na.required = true ∧ na.default_value = "" then wrapDec nrequired
          else nrequired
        (Except.ok (na, nr), r.2)

/-- the main token walk of parse. A token that is not an index key is a
value for the active argument: TooManyInputs when a fixed active argument
already consumed its arity; otherwise the source assigns through
castTo (fixed arity 1) or push_back through castTo (all other shapes).
Since castTo returns by value, both writes land in a temporary: the slot is
read and type-checked but NOT modified, which this embedding mirrors by
leaving variables_ unchanged. A token that is a key goes through keyStep. -/
def parseLoop : Parser → Argument → Nat → Nat → List String →
    Except PError (Argument × Nat × Nat) × Parser
  | p, active, consumed, nrequired, [] => (Except.ok (active, consumed, nrequired), p)
  | p, active, consumed, nrequired, el :: rest =>
    let active_name := active.canonicalName
    if mapCount p.index_ el = 0 then
      if active.isFixed = true ∧ active.fixed_nargs ≤ consumed then
        (Except.error (PError.tooManyInputs active_name), p)
      else
        let r := mapGetI p.index_ active_name
        let p1 : Parser := { p with index_ := r.2 }
        match p1.variables_.get? r.1 with
        | none => (Except.error PError.oobRead, p1)
        | some slot =>
          if active.isFixed = true ∧ active.fixed_nargs = 1 then
            match slot.castToString with
            | Except.error e => (Except.error e, p1)
            | Except.ok _ => parseLoop p1 active (consumed + 1) nrequired rest
          else
            match slot.castToVec with
            | Except.error e => (Except.error e, p1)
            | Except.ok _ => parseLoop p1 active (consumed + 1) nrequired rest
    else
      match keyStep p active consumed nrequired el rest.length with
      | (Except.error e, idx) => (Except.error e, { p with index_ := idx })
      | (Except.ok (na, nr), idx) => parseLoop { p with index_ := idx } na 0 nr rest

/-- the reserved-token walk of parse: a token that matches a key is an
UnexpectedArgumentSpecifier; otherwise the source writes through castTo
into the final slot (again a temporary, so the slot stays unchanged) and
decrements nfinal -/
def finalLoop : Parser → Argument → Nat → List String → Except PError Nat × Parser
  | p, _, nfinal, [] => (Except.ok nfinal, p)
  | p, final, nfinal, el :: rest =>
    if mapCount p.index_ el ≠ 0 then
      (Except.error (PError.unexpectedSpecifier el), p)
    else
      let r := mapGetI p.index_ p.final_name_
      let p1 : Parser := { p with index_ := r.2 }
      match p1.variables_.get? r.1 with
      | none => (Except.error PError.oobRead, p1)
      | some slot =>
        if final.isFixed = true ∧ final.fixed_nargs = 1 then
          match slot.castToString with
          | Except.error e => (Except.error e, p1)
          | Except.ok _ => finalLoop p1 final (wrapDec nfinal) rest
        else
          match slot.castToVec with
          | Except.error e => (Except.error e, p1)
          | Except.ok _ => finalLoop p1 final (wrapDec nfinal) rest

/-- parse: derive the app name, fetch the final argument, compute nrequired
(required_ minus one when the final argument is required, with size_t
wrap) and nfinal, walk the main range, walk the reserved range, and fail
with MissingRequiredArguments when either counter is still positive -/
def parse (p0 : Parser) (argv : List String) : Except PError Unit × Parser :=
  let p := setAppName p0 argv
  match getFinalArg p with
  | (Except.error e, p) => (Except.error e, p)
  | (Except.ok final, p) =>
    let nrequired := if final.required = false then p.required_ else wrapDec p.required_
    let nfinal := nfinalOf final
    let ig := igOf p
    match parseLoop p Argument.init 0 nrequired (mainTokens argv ig nfinal) with
    | (Except.error e, p) => (Except.error e, p)
    | (Except.ok (_, _, nreq2), p) =>
      match finalLoop p final nfinal (finalTokens argv ig nfinal) with
      | (Except.error e, p) => (Except.error e, p)
      | (Except.ok nfin2, p) =>
        if 0 < nreq2 ∨ 0 < nfin2 then (Except.error (PError.missingRequired p.app_name_), p)
        else (Except.ok (), p)

/-- split a character list into lines at newline characters -/
def splitLines : List Char → List (List Char)
  | [] => [[]]
  | c :: rest =>
    let r := splitLines rest
    if c = '\n' then [] :: r
    else
      match r with
      | [] => [[c]]
      | l :: ls => (c :: l) :: ls

/-- the length of the longest line of a rendered string -/
def maxLineLen (s : String) : Nat :=
  ((splitLines s.data).map List.length).foldl max 0

/-- unwrap a declaration result, falling back to the fresh parser (used
only to build concrete states whose construction provably succeeds) -/
def orInit : Except PError Parser → Parser
  | Except.ok q => q
  | Except.error _ => Parser.init

def okStr : Except PError String → String
  | Except.ok s => s
  | Except.error _ => ""

/-- the nfinal rule as the specification words it: no final argument or a
non-required one reserves 0; a required one reserves its fixed arity, or 1
for variable arity + and 0 for variable arity * -/
def nfinalSpec (final : Argument) : Nat :=
  if final.required = true then
    match final.nargs with
    | Nargs.fixedN n => n
    | Nargs.varN c => if c = '+' then 1 else 0
  else 0

/-- a parser with -i and --input declared at fixed arity 1 and default 123 -/
def pC1a : Parser :=
  orInit (addArgument2 Parser.init "-i" "--input" (Char.ofNat 1) "123" false "")

/-- a parser with a bare -a flag of fixed arity 0 -/
def pC1b : Parser :=
  orInit (addArgument1 Parser.init "-a" (Char.ofNat 0) "" false "")

/-- a parser with a required final argument file of arity 1 plus an
optional -v flag of arity 0 -/
def pC2 : Parser :=
  orInit (addArgument1 (addFinalArgument Parser.init "file" (Char.ofNat 1) "" true "")
    "-v" (Char.ofNat 0) "" false "")

/-- a parser with -n and --num declared at fixed arity 1 and default 7 -/
def pC3 : Parser :=
  orInit (addArgument2 Parser.init "-n" "--num" (Char.ofNat 1) "7" false "")

/-- a parser with a single argument of fixed arity 2 (so its slot is a
vector of strings) -/
def pC4 : Parser :=
  orInit (addArgument1 Parser.init "--pair" (Char.ofNat 2) "" false "")

/-- a parser with a final argument and an app name set -/
def pC5 : Parser :=
  appName (addFinalArgument Parser.init "out" (Char.ofNat 1) "" true "") "myapp"

/-- ten required flags whose rendered forms are 8 characters each -/
def namesC6 : List String :=
  ["--aaaaaa", "--bbbbbb", "--cccccc", "--dddddd", "--eeeeee",
   "--ffffff", "--gggggg", "--hhhhhh", "--iiiiii", "--jjjjjj"]

def pC6 : Parser :=
  namesC6.foldl (fun p n => insertArgument p (mkArgument "" n true (Char.ofNat 0) "" ""))
    Parser.init

/-- a parser with a required no-default flag -r and a required flag --esse
that carries the non-empty default d -/
def pC8 : Parser :=
  orInit (addArgument2 (orInit (addArgument1 Parser.init "-r" (Char.ofNat 0) "" true ""))
    "-s" "--esse" (Char.ofNat 0) "d" true "")

def rArg : Argument := mkArgument "-r" "" true (Char.ofNat 0) "" ""

def esseArg : Argument := mkArgument "-s" "--esse" true (Char.ofNat 0) "d" ""

/-- the stale state reached by clear after addFinalArgument: final_name_ is
still --out but the index is empty -/
def pStale : Parser := clear (addFinalArgument Parser.init "out" (Char.ofNat 1) "" true "")

/-- the state after the app-name step of parse Parser.init on prog x -/
def pW10 : Parser := appName Parser.init "prog"

/- ------------------------------------------------------------------ -/
/- Helper lemmas                                                      -/
/- ------------------------------------------------------------------ -/

theorem count_ne_zero_isSome (m : IndexMap) (k : String) (h : ¬ mapCount m k = 0) :
    (mapFind m k).isSome = true := by
  by_contra hc
  simp [mapCount, hc] at h

theorem mapGetI_of_find (m : IndexMap) (k : String) (v : Nat)
    (h : mapFind m k = some v) : mapGetI m k = (v, m) := by
  unfold mapGetI
  rw [h]

theorem mapGetI_snd_of_isSome (m : IndexMap) (k : String)
    (h : (mapFind m k).isSome = true) : (mapGetI m k).2 = m := by
  unfold mapGetI
  cases hm : mapFind m k with
  | none => rw [hm] at h; simp at h
  | some v => rfl

theorem wrapDec_eq (n : Nat) (h1 : 0 < n) (h2 : n < UMAX) : wrapDec n = n - 1 := by
  have hU : UMAX = 18446744073709551616 := by norm_num [UMAX]
  unfold wrapDec
  rw [hU]
  rw [hU] at h2
  omega

theorem countM_snd (p : Parser) (name : String) : (countM p name).2 = p := by
  unfold countM
  by_cases h0 : mapCount p.index_ (delimit name) = 0
  · rw [if_pos h0]
  · rw [if_neg h0]
    have hs := count_ne_zero_isSome _ _ h0
    have hP : ({ p with index_ := (mapGetI p.index_ (delimit name)).2 } : Parser) = p := by
      rw [mapGetI_snd_of_isSome _ _ hs]
    simp only [hP]
    repeat' split
    all_goals rfl

theorem retrieveStringM_snd (p : Parser) (name : String) :
    (retrieveStringM p name).2 = p := by
  unfold retrieveStringM
  by_cases h0 : mapCount p.index_ (delimit name) = 0
  · rw [if_pos h0]
  · rw [if_neg h0]
    have hpair : countM p name = ((countM p name).1, p) :=
      Prod.ext rfl (countM_snd p name)
    rw [hpair]
    cases (countM p name).1 with
    | error e => rfl
    | ok c =>
      simp only
      by_cases hcz : c ≠ 0
      · rw [if_pos hcz]
      · rw [if_neg hcz]
        have hs := count_ne_zero_isSome _ _ h0
        have hP : ({ p with index_ := (mapGetI p.index_ (delimit name)).2 } : Parser) = p := by
          rw [mapGetI_snd_of_isSome _ _ hs]
        simp only [hP]
        repeat' split
        all_goals rfl

theorem usageM_snd (p : Parser)
    (hfin : p.final_name_ = "" ∨ (mapFind p.index_ p.final_name_).isSome = true) :
    (usageM p).2 = p := by
  unfold usageM
  by_cases h0 : p.final_name_ = ""
  · simp [h0]
  · rw [if_neg h0]
    rcases hfin with h | hs
    · exact absurd h h0
    · have hP : ({ p with index_ := (mapGetI p.index_ p.final_name_).2 } : Parser) = p := by
        rw [mapGetI_snd_of_isSome _ _ hs]
      simp only [hP]
      repeat' split
      all_goals rfl

/- ------------------------------------------------------------------ -/
/- Claim theorems                                                     -/
/- ------------------------------------------------------------------ -/

/-- Claim C1. The claim states that retrieval fails with NoValue exactly
when the declared slot is empty and otherwise returns the stored value.
The source has the emptiness check inverted (else if count(name) throws),
which this theorem evaluates: an undeclared name does fail with
Key-not-found as claimed, but a declared name whose slot holds the value
123 fails with Value-not-found, and a declared name whose slot is empty
returns the empty string instead of failing. -/
theorem retrieve_inverted_check :
    (retrieveStringM Parser.init "zzz").1 = Except.error PError.keyNotFound ∧
    (retrieveStringM pC1a "input").1 = Except.error PError.valueNotFound ∧
    (retrieveStringM pC1b "a").1 = Except.ok "" := by
  decide

/-- Claim C2. Declaring the required final argument file (arity 1) and the
optional flag -v (arity 0) and parsing prog -v input.txt parses without
error, but get of file returns the empty string rather than input.txt
(parse writes through castTo, which returns by value, so the write lands
in a temporary) and count of v is 0 rather than at least 1 (an arity-0
flag never marks its slot). -/
theorem parse_example_values_lost :
    (parse pC2 ["prog", "-v", "input.txt"]).1 = Except.ok () ∧
    (retrieveStringM (parse pC2 ["prog", "-v", "input.txt"]).2 "file").1 =
      Except.ok "" ∧
    (countM (parse pC2 ["prog", "-v", "input.txt"]).2 "v").1 = Except.ok 0 := by
  decide

/-- Claim C3. Declaring -n and --num with default 7 and parsing a vector
that never mentions them leaves the default in the slot, but retrieval then
fails with Value-not-found instead of returning the default, because the
non-empty slot makes count nonzero and the retrieve check is inverted. -/
theorem default_retrieval_throws :
    (parse pC3 ["prog"]).1 = Except.ok () ∧
    (retrieveStringM (parse pC3 ["prog"]).2 "num").1 =
      Except.error PError.valueNotFound := by
  decide

/-- Claim C4. The claim states count returns the list length for a
list-of-strings slot and never raises. For a fixed arity of 2 the slot is a
vector, but count dispatches on the fixed flag alone and casts the slot to
a single string, which throws bad_cast. -/
theorem count_badcast_fixed2 :
    (countM pC4 "pair").1 = Except.error PError.badCast := by
  decide

/-- Claim C5 counterexample. The claim states that clear returns the parser
to its initial configuration. On a state with a registered final argument
and an app name, the cleared parser differs from the fresh one: app_name_,
final_name_ (and use_exceptions_ in general) survive clear. -/
theorem clear_not_initial : clear pC5 ≠ Parser.init := by
  decide

/-- Claim C5 (amended): clear empties the declarations, the index and the
value slots, zeroes the required counter and restores first-token skipping
to true, while the app name, the final-argument designation and the error
mode keep their prior values. -/
theorem clear_keeps_config (p : Parser) :
    clear p =
      { Parser.init with
        use_exceptions_ := p.use_exceptions_
        app_name_ := p.app_name_
        final_name_ := p.final_name_ } := rfl

/-- Claim C6 counterexample. Ten required 8-character flags produce a
usage string whose single line is 97 characters long: the claim that every
usage line is at most 80 characters fails, because the line-length
accounting ignores the Usage prefix and the separating spaces. -/
theorem usage_line_over_80 : 80 < maxLineLen (okStr (usageM pC6).1) := by
  decide

/-- Claim C6 (amended): the line-length accumulator maintained by the
usage wrapping loops never exceeds 80 when it starts at most 80; rendered
lines can still be longer, because the accumulator counts only the
rendered argument strings placed without a break and not the prefix, the
emitted spaces, the indent, or the argument emitted right after a break. -/
theorem usageFold_linelength_le (fn : String) (ind : Nat) (w : Bool)
    (args : List Argument) (acc : String) (ll : Nat) (h : ll ≤ 80) :
    (usageFold fn ind w args acc ll).2 ≤ 80 := by
  induction args generalizing acc ll with
  | nil => simpa [usageFold] using h
  | cons a rest ih =>
    simp only [usageFold]
    split_ifs with h1 h2 h3
    · exact ih acc ll h
    · exact ih acc ll h
    · exact ih _ 0 (by omega)
    · exact ih _ _ (by omega)

theorem usageFold_linelength_le_witness :
    (usageFold "" 7 true [Argument.init] "x" 0).2 ≤ 80 :=
  usageFold_linelength_le "" 7 true [Argument.init] "x" 0 (by norm_num)

/-- Claim C7: at the start of parse the reserved trailing-token count
nfinal is 0 when no final argument is registered (parse then works with a
default-constructed Argument, which is not required) or when the final
argument is not required, and otherwise equals its fixed arity, or 1 for
variable arity + and 0 for variable arity *. nfinalOf is the computation
from the source and nfinalSpec restates the specification sentence. -/
theorem nfinal_matches_spec :
    (∀ a : Argument, nfinalOf a = nfinalSpec a) ∧
    (∀ p : Parser, p.final_name_ = "" →
      getFinalArg p = (Except.ok Argument.init, p) ∧ nfinalOf Argument.init = 0) := by
  constructor
  · intro a
    rcases a with ⟨sn, nm, req, dv, hl, na⟩
    cases na <;> cases req <;>
      simp [nfinalOf, nfinalSpec, Argument.isFixed, Argument.fixed_nargs,
        Argument.variable_nargs]
  · intro p hp
    exact ⟨by simp [getFinalArg, hp], rfl⟩

theorem nfinal_matches_spec_witness :
    getFinalArg Parser.init = (Except.ok Argument.init, Parser.init) ∧
    nfinalOf Argument.init = 0 :=
  nfinal_matches_spec.2 Parser.init rfl

/-- Claim C8 counterexample. The claim states that a required key
encountered while required arguments are outstanding decrements the
outstanding-required counter. In pC8 the key --esse is required but
carries the non-empty default d: with the counter at 1 the step accepts
the key yet returns the counter unchanged at 1 instead of decrementing it
to 0. -/
theorem keyStep_no_decrement :
    (keyStep pC8 Argument.init 0 1 "--esse" 0).1 = Except.ok (esseArg, 1) ∧
    ¬ (keyStep pC8 Argument.init 0 1 "--esse" 0).1 = Except.ok (esseArg, 0) := by
  decide

/-- Claim C8 (amended): when a token that is a declared key is processed
and the previous active argument has met its arity, a non-required new
argument while the outstanding-required counter is positive fails with
UnexpectedRequiredArgument; a required new argument never triggers that
error, and it decrements the counter exactly when its default value is
empty (a required argument with a non-empty default leaves the counter
unchanged). -/
theorem keyStep_required_ordering (p : Parser) (active : Argument)
    (consumed nrequired : Nat) (el : String) (nrem N : Nat) (arg : Argument)
    (hidx : mapFind p.index_ el = some N)
    (harg : p.arguments_.get? N = some arg)
    (hok : ¬ incompleteCond active consumed) :
    (arg.required = false → 0 < nrequired →
      (keyStep p active consumed nrequired el nrem).1 =
        Except.error (PError.unexpectedRequired el)) ∧
    (arg.required = true →
      (∀ e, (keyStep p active consumed nrequired el nrem).1 ≠
          Except.error (PError.unexpectedRequired e)) ∧
      (arg.default_value = "" → 0 < nrequired → nrequired < UMAX →
        ¬ tooFewCond arg nrem →
        (keyStep p active consumed nrequired el nrem).1 =
          Except.ok (arg, nrequired - 1)) ∧
      (arg.default_value ≠ "" → ¬ tooFewCond arg nrem →
        (keyStep p active consumed nrequired el nrem).1 =
          Except.ok (arg, nrequired))) := by
  unfold keyStep
  rw [if_neg hok]
  simp only [mapGetI_of_find p.index_ el N hidx, harg]
  constructor
  · intro hreq hnr
    rw [if_pos ⟨hreq, hnr⟩]
  · intro hreq
    have hcond : ¬ (arg.required = false ∧ 0 < nrequired) := by
      simp [hreq]
    refine ⟨?_, ?_, ?_⟩
    · intro e
      rw [if_neg hcond]
      by_cases htf : tooFewCond arg nrem
      · rw [if_pos htf]
        simp
      · rw [if_neg htf]
        split <;> simp
    · intro hd h1 h2 htf
      rw [if_neg hcond, if_neg htf, if_pos ⟨hreq, hd⟩, wrapDec_eq nrequired h1 h2]
    · intro hd htf
      rw [if_neg hcond, if_neg htf, if_neg (by simp [hd])]

theorem keyStep_required_ordering_witness :
    ((rArg.required = false → 0 < 1 →
      (keyStep pC8 Argument.init 0 1 "-r" 0).1 =
        Except.error (PError.unexpectedRequired "-r")) ∧
    (rArg.required = true →
      (∀ e, (keyStep pC8 Argument.init 0 1 "-r" 0).1 ≠
          Except.error (PError.unexpectedRequired e)) ∧
      (rArg.default_value = "" → 0 < 1 → 1 < UMAX → ¬ tooFewCond rArg 0 →
        (keyStep pC8 Argument.init 0 1 "-r" 0).1 = Except.ok (rArg, 1 - 1)) ∧
      (rArg.default_value ≠ "" → ¬ tooFewCond rArg 0 →
        (keyStep pC8 Argument.init 0 1 "-r" 0).1 = Except.ok (rArg, 1)))) :=
  keyStep_required_ordering pC8 Argument.init 0 1 "-r" 0 0 rArg (by decide)
    (by decide) (by decide)

/-- Claim C9 counterexample. The claim states that usage leaves every
parser state observably unchanged. In the stale state reached by clear
after addFinalArgument, the usage lookup of final_name_ through the map
subscript operator inserts a fresh index entry, so the state after usage
differs from the state before. -/
theorem usage_mutates_stale : (usageM pStale).2 ≠ pStale := by
  decide

/-- Claim C9 (amended): count and retrieve never modify the parser state;
usage leaves the state unchanged provided the final-argument name, when
non-empty, is still present in the index (which holds in every state that
does not pass through clear after addFinalArgument). -/
theorem retrieval_preserves_state (p : Parser) (name : String)
    (hfin : p.final_name_ = "" ∨ (mapFind p.index_ p.final_name_).isSome = true) :
    (countM p name).2 = p ∧ (retrieveStringM p name).2 = p ∧ (usageM p).2 = p :=
  ⟨countM_snd p name, retrieveStringM_snd p name, usageM_snd p hfin⟩

theorem retrieval_preserves_state_witness :
    (countM Parser.init "x").2 = Parser.init ∧
    (retrieveStringM Parser.init "x").2 = Parser.init ∧
    (usageM Parser.init).2 = Parser.init :=
  retrieval_preserves_state Parser.init "x" (Or.inl rfl)

/-- Claim C10: when the first token examined by the main parse walk (after
the optional skip of the program name and excluding the trailing tokens
reserved for the final argument) is not a declared key, parse fails with
TooManyInputs, because the initial active argument is default-constructed
with fixed arity 0 and an empty canonical name. -/
theorem first_token_not_key_fails (p0 : Parser) (argv : List String)
    (fa : Argument) (p1 : Parser) (el : String) (rest : List String)
    (hfin : getFinalArg (setAppName p0 argv) = (Except.ok fa, p1))
    (hmain : mainTokens argv (igOf p1) (nfinalOf fa) = el :: rest)
    (hkey : mapCount p1.index_ el = 0) :
    (parse p0 argv).1 = Except.error (PError.tooManyInputs "") := by
  simp only [parse]
  rw [hfin]
  simp only
  rw [hmain]
  simp [parseLoop, hkey, Argument.init, Argument.isFixed, Argument.fixed_nargs,
    Argument.canonicalName]

theorem first_token_not_key_fails_witness :
    (parse Parser.init ["prog", "x"]).1 = Except.error (PError.tooManyInputs "") :=
  first_token_not_key_fails Parser.init ["prog", "x"] Argument.init pW10 "x" []
    (by decide) (by decide) (by decide)

end Argparse
